import Mathlib

/-!
# gcodeRender: the renderer of `gcodeparser/renderer.cpp`

A shallow embedding of `Renderer` (`Renderer.h`, `renderer.cpp`).

* `float` arithmetic is read over an arbitrary linearly ordered field `α`
  (the rationals and the reals are instances); rounding is not modelled.
* `int` counts are `Int`; the image dimensions `width`, `height` are `Nat`
  (a render context has no negative size).  The `int` arithmetic of `saveRender`
  on them wraps at 32 bits (`int32`), and `new uint8_t[n]` throws for a negative `n`.
* The renderer is a record that is passed from call to call.  Every call that
  reaches a collaborator (the OpenGL backend, the gcode parser, libpng) is
  appended to the field `calls`, in the order in which it is issued.
* `GcodeParser` (`gcodeparser.h`) is not part of these sources: it is a
  parameter, a state `σ` with the two member functions the renderer calls.
* The `while` loop of `renderPart` runs on fuel: `none` means that the fuel
  ran out before the parser returned `false`.  `some` is the state in which
  control leaves the function, also when the allocation of `saveRender` throws.
-/

namespace GcodeRender

/-! ## Data model -/

/-- The two values of `drawType` (`DRAW_LINES`, `DRAW_TUBES`). -/
inductive DrawType where
  | DRAW_LINES
  | DRAW_TUBES
  deriving DecidableEq, Repr

/-- The `element_type` argument of `glDrawElements`. -/
inductive ElementType where
  | GL_LINES
  | GL_TRIANGLES
  deriving DecidableEq, Repr

/-- Bounding box `BBox` of `gcodeparser.h`, as `renderGcode` initialises it:
`{ xmin, xmax, ymin, ymax, zmin, zmax }`. -/
structure BBox (α : Type) where
  xmin : α
  xmax : α
  ymin : α
  ymax : α
  zmin : α
  zmax : α
  deriving DecidableEq, Repr

/-- A `glm::vec2`. -/
structure Vec2 (α : Type) where
  x : α
  y : α
  deriving DecidableEq, Repr

/-- A `glm::vec3`. -/
structure Vec3 (α : Type) where
  x : α
  y : α
  z : α
  deriving DecidableEq, Repr

/-- Componentwise sum of two `glm::vec3`. -/
def Vec3.add {α : Type} [Add α] (a b : Vec3 α) : Vec3 α :=
  ⟨a.x + b.x, a.y + b.y, a.z + b.z⟩

/-- A `float[4]` colour. -/
structure Color (α : Type) where
  r : α
  g : α
  b : α
  a : α
  deriving DecidableEq, Repr

/-- Name container `BufferInfo` of `Renderer.h`.  `vertexArray` is only assigned
a generated name when `NEED_VERTEX_ARRAY_OBJECT` is defined. -/
structure BufferInfo where
  indexBuffer : Nat
  vertexBuffer : Nat
  vertexArray : Option Nat
  nIndices : Int
  nVertices : Int
  deriving DecidableEq, Repr

/-- What `setCamera` derives before it builds the matrices: the target, the eye
position and the field of view in degrees. -/
structure Camera (α : Type) where
  cameraTarget : Vec3 α
  cameraPosition : Vec3 α
  fov_deg : α
  deriving DecidableEq, Repr

/-- The result of one call `parser->get_vertices(n_lines, &nVertices, vertices,
&nIndices, indices)`: the returned `bool` and the two counts it stored. -/
structure Chunk where
  ret : Bool
  nVertices : Int
  nIndices : Int
  deriving DecidableEq, Repr

/-- The gcode parser as the renderer sees it: a state `σ` and the member
functions `get_vertices` and `get_bbox` (which returns `false`, here `none`,
when there is no valid bounding box). -/
structure GcodeParser (σ α : Type) where
  get_vertices : Nat → σ → Chunk × σ
  get_bbox : σ → Option (BBox α)

/-- One call that the renderer issues to a collaborator. -/
inductive Call (α : Type) where
  | glClear
  | get_vertices (n_lines : Nat) (c : Chunk)
  | buffer (info : BufferInfo)
  | setCamera (cam : Camera α)
  | draw (color : Color α) (info : BufferInfo) (element_type : ElementType)
  | deleteBuffer (info : BufferInfo)
  | glFlush
  | glFinish
  | glReadPixels (width height : Nat)
  | png_set_rows (rows : List Int)
  deriving DecidableEq, Repr

/-- The fields of `class Renderer` that the rendering functions read or write,
together with the two name counters of the OpenGL backend (`glGenBuffers`,
`glGenVertexArrays` hand out the next unused names) and the trace `calls`. -/
structure Renderer (α : Type) where
  width : Nat
  height : Nat
  drawType : DrawType
  linesPerRun : Nat
  bedBuffer : BufferInfo
  memoryUsed : Int
  bedWidth : α
  bedDepth : α
  bedHeight : α
  bedOriginOffset : Vec2 α
  partColor : Color α
  bedColor : Color α
  backgroundColor : Color α
  pointCameraAtPart : Bool
  cameraDistance : Vec3 α
  NEED_VERTEX_ARRAY_OBJECT : Bool
  genBuffers : Nat
  genVertexArrays : Nat
  calls : List (Call α)

variable {α σ : Type}

/-- Constructor `Renderer::Renderer(width, height)` with the member initialisers of
`Renderer.h`; no buffer exists yet and nothing has been called. -/
def Renderer.new [LinearOrderedField α] (width height : Nat) (needVAO : Bool) :
    Renderer α where
  width := width
  height := height
  drawType := DrawType.DRAW_LINES
  linesPerRun := 10000
  bedBuffer := ⟨0, 0, none, 0, 0⟩
  memoryUsed := 0
  bedWidth := 365
  bedDepth := 350
  bedHeight := 200
  bedOriginOffset := ⟨37, 33⟩
  partColor := ⟨67 / 255, 74 / 255, 84 / 255, 1⟩
  bedColor := ⟨3 / 4, 3 / 4, 3 / 4, 1⟩
  backgroundColor := ⟨1, 1, 1, 1⟩
  pointCameraAtPart := true
  cameraDistance := ⟨-300, -300, 150⟩
  NEED_VERTEX_ARRAY_OBJECT := needVAO
  genBuffers := 0
  genVertexArrays := 0
  calls := []

/-! ## Buffers -/

/-- The `BufferInfo` that `buffer` fills in: `vbo` and `ivbo` are the next two
buffer names, `vertexArray` the next vertex-array name when
`NEED_VERTEX_ARRAY_OBJECT` is defined. -/
def Renderer.bufferInfo (r : Renderer α) (nVertices nIndices : Int) : BufferInfo where
  nVertices := nVertices
  nIndices := nIndices
  vertexBuffer := r.genBuffers + 1
  indexBuffer := r.genBuffers + 2
  vertexArray := if r.NEED_VERTEX_ARRAY_OBJECT then some (r.genVertexArrays + 1) else none

/-- Member `Renderer::buffer`: create the vertex and index buffer objects, load the
data, and count the bytes (`sizeof(float) = 4`, `sizeof(short) = 2`). -/
def Renderer.buffer (r : Renderer α) (nVertices nIndices : Int) : Renderer α × BufferInfo :=
  let vertexBuffer_size := nVertices * 4
  let indexBuffer_size := nIndices * 2
  let bufferInfo := r.bufferInfo nVertices nIndices
  ({ r with
      genBuffers := r.genBuffers + 2
      genVertexArrays := if r.NEED_VERTEX_ARRAY_OBJECT then r.genVertexArrays + 1 else r.genVertexArrays
      memoryUsed := r.memoryUsed + (vertexBuffer_size + indexBuffer_size)
      calls := r.calls ++ [Call.buffer bufferInfo] }, bufferInfo)

/-- Member `Renderer::deleteBuffer`: unbind and delete the buffer objects of `bufferInfo`. -/
def Renderer.deleteBuffer (r : Renderer α) (bufferInfo : BufferInfo) : Renderer α :=
  { r with calls := r.calls ++ [Call.deleteBuffer bufferInfo] }

/-- Member `Renderer::draw`: set the colour, wire the buffers and issue `glDrawElements`. -/
def Renderer.draw (r : Renderer α) (color : Color α) (bufferInfo : BufferInfo)
    (element_type : ElementType) : Renderer α :=
  { r with calls := r.calls ++ [Call.draw color bufferInfo element_type] }

/-! ## Camera -/

/-- The two factors of the part-centered branch of `Renderer::setCamera`:
`x_factor = part_width / bedWidth` and `y_factor = part_depth / bedDepth`. -/
def Renderer.partFactors [LinearOrderedField α] (r : Renderer α) (bbox : BBox α) : α × α :=
  let part_width := bbox.xmax - bbox.xmin
  let part_depth := bbox.ymax - bbox.ymin
  -- Range offset from 0.0 (empty part), to 1.0 (full bed used, widest angle needed)
  let x_factor := part_width / r.bedWidth
  let y_factor := part_depth / r.bedDepth
  (x_factor, y_factor)

/-- The two factors of the bed-centered branch of `Renderer::setCamera`, from the
smallest offset of the box to the bed edges on each axis. -/
def Renderer.bedFactors [LinearOrderedField α] (r : Renderer α) (bbox : BBox α) : α × α :=
  -- Minimal smallest offset to bed edges
  let x_offset_min :=
    min (r.bedOriginOffset.x + bbox.xmin) (r.bedWidth - r.bedOriginOffset.x - bbox.xmax)
  let y_offset_min :=
    min (r.bedOriginOffset.y + bbox.ymin) (r.bedDepth - r.bedOriginOffset.y - bbox.ymax)
  -- Range offset from 0.0 (center of bed, smallest possible angle), to 1.0 (full bed used)
  let x_factor := 1 - x_offset_min / (r.bedWidth / 2)
  let y_factor := 1 - y_offset_min / (r.bedDepth / 2)
  (x_factor, y_factor)

/-- The first part of `Renderer::setCamera` (up to `cameraPosition = cameraTarget +
cameraDistance`): target, eye position and field of view, from the result of
`parser->get_bbox(&bbox)`. -/
def Renderer.cameraState [LinearOrderedField α] (r : Renderer α) (bbox : Option (BBox α)) :
    Camera α :=
  -- Start with a field-of-view for the camera of 20 deg
  let fov_deg : α := 20
  match bbox with
  | some bbox =>
    -- Never go below this fov
    let fov_deg_min : α := 5
    if r.pointCameraAtPart then
      -- Point to the middle of the part
      let cameraTarget : Vec3 α :=
        ⟨(bbox.xmax + bbox.xmin) / 2, (bbox.ymax + bbox.ymin) / 2, (bbox.zmax + bbox.zmin) / 2⟩
      let (x_factor, y_factor) := r.partFactors bbox
      -- Use the biggest factor and scale to max 60 degrees (which is ~ the whole bed)
      let factor_max := max x_factor y_factor
      let fov_deg := max fov_deg_min (factor_max * 60)
      -- Move the camera away from the target
      ⟨cameraTarget, cameraTarget.add r.cameraDistance, fov_deg⟩
    else
      -- Point to the middle of the bed
      let cameraTarget : Vec3 α :=
        ⟨(r.bedWidth - r.bedOriginOffset.x) / 2, (r.bedDepth - r.bedOriginOffset.y) / 2, 0⟩
      let (x_factor, y_factor) := r.bedFactors bbox
      -- Use the biggest factor and scale to max 60 degrees (which is ~ the whole bed)
      let factor_max := max x_factor y_factor
      let fov_deg := max fov_deg_min (factor_max * 60)
      ⟨cameraTarget, cameraTarget.add r.cameraDistance, fov_deg⟩
  | none =>
    -- We don't have a valid bounding box of the part: point to the middle of the bed
    let cameraTarget : Vec3 α :=
      ⟨(r.bedWidth - r.bedOriginOffset.x) / 2, (r.bedDepth - r.bedOriginOffset.y) / 2, 0⟩
    ⟨cameraTarget, cameraTarget.add r.cameraDistance, fov_deg⟩

/-- Member `Renderer::setCamera`: derive the camera from the parser's bounding box and
upload the camera matrix built from it. -/
def Renderer.setCamera [LinearOrderedField α] (r : Renderer α) (parser : GcodeParser σ α)
    (s : σ) : Renderer α :=
  { r with calls := r.calls ++ [Call.setCamera (r.cameraState (parser.get_bbox s))] }

/-! ## Bed -/

/-- The array `bedvertices` that `Renderer::bufferBed` builds. -/
def Renderer.bedvertices [LinearOrderedField α] (r : Renderer α) : List α :=
  let x_min := -r.bedOriginOffset.x
  let x_max := r.bedWidth - r.bedOriginOffset.x
  let y_min := -r.bedOriginOffset.y
  let y_max := r.bedDepth - r.bedOriginOffset.y
  if r.drawType = DrawType.DRAW_TUBES then
    [x_min, y_min, 0, 0, 0, 1,
     x_min, y_max, 0, 0, 0, 1,
     x_max, y_max, 0, 0, 0, 1,
     x_max, y_min, 0, 0, 0, 1]
  else
    [x_min, y_min, 0,
     x_min, y_max, 0,
     x_max, y_max, 0,
     x_max, y_min, 0]

/-- The array `bedindices` of `Renderer::bufferBed`. -/
def bedindices : List Int := [0, 1, 2, 2, 3, 0]

/-- Member `Renderer::bufferBed`: buffer the bed quad and keep its names in `bedBuffer`. -/
def Renderer.bufferBed [LinearOrderedField α] (r : Renderer α) : Renderer α :=
  let bedvertices_n : Int := r.bedvertices.length
  let bedindices_n : Int := bedindices.length
  let (r, info) := r.buffer bedvertices_n bedindices_n
  { r with bedBuffer := info }

/-- Member `Renderer::renderBed`: draw the bed buffer with the bed colour. -/
def Renderer.renderBed (r : Renderer α) : Renderer α :=
  r.draw r.bedColor r.bedBuffer ElementType.GL_TRIANGLES

/-- The backend work of `Renderer::initialize` after the program is created:
the bed vertices are loaded once. -/
def Renderer.initialise [LinearOrderedField α] (r : Renderer α) : Renderer α :=
  r.bufferBed

/-! ## Part -/

/-- The topology `renderPart` draws a chunk with: `GL_LINES` for `DRAW_LINES`,
`GL_TRIANGLES` otherwise. -/
def Renderer.partElementType (r : Renderer α) : ElementType :=
  if r.drawType = DrawType.DRAW_LINES then ElementType.GL_LINES else ElementType.GL_TRIANGLES

/-- Record a call `parser->get_vertices(linesPerRun, ...)` and its result. -/
def Renderer.pulled (r : Renderer α) (c : Chunk) : Renderer α :=
  { r with calls := r.calls ++ [Call.get_vertices r.linesPerRun c] }

/-- The body of the `while` loop of `renderPart` for the chunk `c` that the loop
condition has just read: `buffer`, `draw`, `deleteBuffer`. -/
def Renderer.renderChunk (r : Renderer α) (c : Chunk) : Renderer α :=
  let (r, buff) := r.buffer c.nVertices c.nIndices
  let r := r.draw r.partColor buff r.partElementType
  r.deleteBuffer buff

/-- The `while (parser->get_vertices(...)) { ... }` loop of `renderPart`. -/
def Renderer.renderRest (parser : GcodeParser σ α) :
    Nat → σ → Renderer α → Option (σ × Renderer α)
  | 0, _, _ => none
  | fuel + 1, s, r =>
    let (c, s) := parser.get_vertices r.linesPerRun s
    let r := r.pulled c
    if c.ret then
      Renderer.renderRest parser fuel s (r.renderChunk c)
    else
      some (s, r)

/-- Member `Renderer::renderPart`: the first chunk, with the camera set before it is
drawn, then the loop over the rest of the gcode. -/
def Renderer.renderPart [LinearOrderedField α] (parser : GcodeParser σ α) (fuel : Nat) (s : σ)
    (r : Renderer α) : Option (σ × Renderer α) :=
  let r := { r with memoryUsed := 0 }
  -- Extract vertices from the first n lines of gcode (the returned flag is not read)
  let (c, s) := parser.get_vertices r.linesPerRun s
  let r := r.pulled c
  -- Store them in the GPU
  let (r, buff) := r.buffer c.nVertices c.nIndices
  let r := r.setCamera parser s
  -- With the camera in place we can start drawing
  let r := r.draw r.partColor buff r.partElementType
  -- Free some space
  let r := r.deleteBuffer buff
  -- Continue to read, buffer and draw the rest of the gcode file
  Renderer.renderRest parser fuel s r

/-! ## Image -/

/-- The value that a C++ `int` takes when the exact result of an operation is `x`:
wrap-around in 32-bit two's complement. -/
def int32 (x : Int) : Int :=
  (x + 2147483648) % 4294967296 - 2147483648

/-- The buffer size `const int n = 4 * width*height` of `saveRender`, computed in `int`. -/
def saveRender_n (width height : Int) : Int :=
  int32 (int32 (4 * width) * height)

/-- The row pointers that `saveRender` hands to libpng, as byte offsets into
`imgData`: `rows[i] = &imgData[(height - i - 1) * width * 4]` for `i = 0 .. height-1`,
every operation in `int`.  The result is `none` when `new uint8_t[n]` throws, which
it does for a negative `n`: `saveRender` is then left before any row is formed. -/
def saveRender_rows (width height : Int) : Option (List Int) :=
  let n := saveRender_n width height
  if n < 0 then none
  else some ((List.range height.toNat).map fun (i : Nat) =>
    int32 (int32 (int32 (int32 (height - (i : Int)) - 1) * width) * 4))

/-- The calls of `Renderer::saveRender`, given the outcome `rows` of the allocation and
of the row pointer loop: the fence, and, unless the allocation of `imgData` threw
(`none`), the readback and the row pointers passed to libpng. -/
def Renderer.saveRenderCalls (r : Renderer α) : Option (List Int) → List (Call α)
  | some rows =>
    [Call.glFlush, Call.glFinish, Call.glReadPixels r.width r.height, Call.png_set_rows rows]
  | none => [Call.glFlush, Call.glFinish]

/-- Member `Renderer::saveRender`: fence the pipeline, read the pixels back and pass the
flipped row pointers to libpng. -/
def Renderer.saveRender (r : Renderer α) : Renderer α :=
  { r with calls := r.calls ++ r.saveRenderCalls (saveRender_rows r.width r.height) }

/-- The call `glClear(GL_COLOR_BUFFER_BIT | GL_DEPTH_BUFFER_BIT)`. -/
def Renderer.glClear (r : Renderer α) : Renderer α :=
  { r with calls := r.calls ++ [Call.glClear] }

/-- The body of `Renderer::renderGcode` on an opened parser: clear, render the
part, render the bed, save. -/
def Renderer.renderGcode [LinearOrderedField α] (parser : GcodeParser σ α) (fuel : Nat) (s : σ)
    (r : Renderer α) : Option (σ × Renderer α) :=
  let r := r.glClear
  match Renderer.renderPart parser fuel s r with
  | none => none
  | some (s, r) =>
    let r := r.renderBed
    some (s, r.saveRender)

/-! ## Observing a run -/

/-- The results of the first `k` calls `get_vertices(n, ...)` from state `s`, in
call order. -/
def GcodeParser.pulls (parser : GcodeParser σ α) (n : Nat) : Nat → σ → List Chunk
  | 0, _ => []
  | k + 1, s =>
    (parser.get_vertices n s).1 :: GcodeParser.pulls parser n k (parser.get_vertices n s).2

/-- The parser state after `k` calls `get_vertices(n, ...)` from state `s`. -/
def GcodeParser.after (parser : GcodeParser σ α) (n : Nat) : Nat → σ → σ
  | 0, s => s
  | k + 1, s => GcodeParser.after parser n k (parser.get_vertices n s).2

/-- The stream that a run of `renderPart` reads: the first call stores `first`,
the following calls return `true` and store the chunks of `rest`, and the call
after them returns `false` (storing `last`). -/
def GcodeParser.Yields (parser : GcodeParser σ α) (n : Nat) (s : σ)
    (first : Chunk) (rest : List Chunk) (last : Chunk) : Prop :=
  GcodeParser.pulls parser n (rest.length + 2) s = first :: (rest ++ [last]) ∧
    (∀ c ∈ rest, c.ret = true) ∧ last.ret = false

/-- Is the call the upload of the camera transform? -/
def Call.isSetCamera : Call α → Bool
  | Call.setCamera _ => true
  | _ => false

/-- Is the call a draw call? -/
def Call.isDraw : Call α → Bool
  | Call.draw _ _ _ => true
  | _ => false

/-- Is the call one of the three calls in the life of a buffer (`buffer`,
`draw`, `deleteBuffer`)? -/
def Call.isBufferCall : Call α → Bool
  | Call.buffer _ => true
  | Call.draw _ _ _ => true
  | Call.deleteBuffer _ => true
  | _ => false

/-- The buffers uploaded by `buffer`, in call order. -/
def uploaded : List (Call α) → List BufferInfo
  | [] => []
  | Call.buffer info :: cs => info :: uploaded cs
  | _ :: cs => uploaded cs

/-- The buffers drawn by `draw`, in call order. -/
def drawn : List (Call α) → List BufferInfo
  | [] => []
  | Call.draw _ info _ :: cs => info :: drawn cs
  | _ :: cs => drawn cs

/-- Does `deleteBuffer(info)` destroy the buffer `b`?  It deletes the two names
`info.vertexBuffer` and `info.indexBuffer`. -/
def BufferInfo.deletedBy (b info : BufferInfo) : Bool :=
  b.vertexBuffer = info.vertexBuffer || b.vertexBuffer = info.indexBuffer ||
    b.indexBuffer = info.vertexBuffer || b.indexBuffer = info.indexBuffer

/-- The effect of one call on the list of buffers that are alive. -/
def aliveStep (live : List BufferInfo) : Call α → List BufferInfo
  | Call.buffer info => live ++ [info]
  | Call.deleteBuffer info => live.filter fun b => !b.deletedBy info
  | _ => live

/-- The buffers that are alive after the calls `cs`: created by `buffer` and not
yet destroyed by `deleteBuffer`. -/
def alive (cs : List (Call α)) : List BufferInfo :=
  cs.foldl aliveStep []

/-- The session is ready to render: the bed buffer is the one buffer alive, and
its names were handed out by the backend. -/
def Renderer.Ready (r : Renderer α) : Prop :=
  alive r.calls = [r.bedBuffer] ∧
    r.bedBuffer.vertexBuffer ≤ r.genBuffers ∧ r.bedBuffer.indexBuffer ≤ r.genBuffers

/-- One turn of the loop of `renderPart`: the read that returned `true`, then the body. -/
def Renderer.turn (r : Renderer α) (c : Chunk) : Renderer α :=
  (r.pulled c).renderChunk c

/-- The calls of one turn of the loop. -/
def Renderer.turnCalls (r : Renderer α) (c : Chunk) : List (Call α) :=
  [Call.get_vertices r.linesPerRun c,
   Call.buffer (r.bufferInfo c.nVertices c.nIndices),
   Call.draw r.partColor (r.bufferInfo c.nVertices c.nIndices) r.partElementType,
   Call.deleteBuffer (r.bufferInfo c.nVertices c.nIndices)]

/-- The calls of the turns of the loop for the chunks `cs`. -/
def Renderer.turnsCalls (r : Renderer α) : List Chunk → List (Call α)
  | [] => []
  | c :: cs => r.turnCalls c ++ Renderer.turnsCalls (r.turn c) cs

/-- The buffers created in the turns of the loop for the chunks `cs`. -/
def Renderer.turnsBuffers (r : Renderer α) : List Chunk → List BufferInfo
  | [] => []
  | c :: cs => r.bufferInfo c.nVertices c.nIndices :: Renderer.turnsBuffers (r.turn c) cs

/-- The renderer after `glClear` and the first chunk of `renderPart`, up to the
start of the loop. -/
def Renderer.firstChunk [LinearOrderedField α] (r : Renderer α) (parser : GcodeParser σ α)
    (s : σ) : Renderer α :=
  let r := { r with memoryUsed := 0 }
  let (c, s) := parser.get_vertices r.linesPerRun s
  let r := r.pulled c
  let (r, buff) := r.buffer c.nVertices c.nIndices
  let r := r.setCamera parser s
  let r := r.draw r.partColor buff r.partElementType
  r.deleteBuffer buff

/-- The buffer that `renderPart` creates for the first chunk. -/
def Renderer.firstBuffer (r : Renderer α) (parser : GcodeParser σ α) (s : σ) : BufferInfo :=
  r.bufferInfo (parser.get_vertices r.linesPerRun s).1.nVertices
    (parser.get_vertices r.linesPerRun s).1.nIndices

/-- The calls that `renderPart` issues when the parser yields `first`, `rest`, `last`. -/
def Renderer.partCalls [LinearOrderedField α] (r : Renderer α) (parser : GcodeParser σ α)
    (s : σ) (rest : List Chunk) (last : Chunk) : List (Call α) :=
  [Call.get_vertices r.linesPerRun (parser.get_vertices r.linesPerRun s).1,
   Call.buffer (r.firstBuffer parser s),
   Call.setCamera (r.cameraState (parser.get_bbox (parser.get_vertices r.linesPerRun s).2)),
   Call.draw r.partColor (r.firstBuffer parser s) r.partElementType,
   Call.deleteBuffer (r.firstBuffer parser s)] ++
  ((r.firstChunk parser s).turnsCalls rest ++ [Call.get_vertices r.linesPerRun last])

/-- The buffers that `renderPart` creates when the loop runs for the chunks `rest`. -/
def Renderer.partBuffers [LinearOrderedField α] (r : Renderer α) (parser : GcodeParser σ α)
    (s : σ) (rest : List Chunk) : List BufferInfo :=
  r.firstBuffer parser s :: (r.firstChunk parser s).turnsBuffers rest

/-- From the live list `live`, at most one further buffer is alive at any point
of the calls `cs`, and none once they are all issued. -/
def Transient (live : List BufferInfo) (cs : List (Call α)) : Prop :=
  (∀ k, (cs.take k).foldl aliveStep live = live ∨
      ∃ b, (cs.take k).foldl aliveStep live = live ++ [b]) ∧
    cs.foldl aliveStep live = live

/-- A parser that replays a fixed list of call results; once the list is used
up every call returns `false` and stores nothing. -/
def replayParser (bbox : Option (BBox α)) : GcodeParser (List Chunk) α where
  get_vertices := fun _ s =>
    match s with
    | [] => (⟨false, 0, 0⟩, [])
    | c :: cs => (c, cs)
  get_bbox := fun _ => bbox

/-- A session with the settings of `Renderer.h` for a 250 x 250 image, after
`initialize`. -/
def readyRenderer : Renderer ℚ :=
  (Renderer.new 250 250 false).initialise

/-- A stream for `replayParser`: two chunks, then the call that returns `false`. -/
def exampleStream : List Chunk :=
  [⟨true, 6, 4⟩, ⟨true, 3, 2⟩, ⟨false, 0, 0⟩]

/-- Modelled from the spec: the GeometryProducer interface
`nextChunk(maxLines) -> (vertices, indices, hasMore: bool)` of section 6, whose
implementation is not part of these sources.  The state is the list of toolpath
lines still to be streamed, each with the vertex and index counts it contributes.
A call fills one chunk from at most `maxLines` lines and returns `hasMore`: `false`
means that the toolpath is exhausted. -/
def nextChunkProducer : GcodeParser (List (Int × Int)) α where
  get_vertices := fun maxLines lines =>
    let chunk := lines.take maxLines
    let remaining := lines.drop maxLines
    (⟨!remaining.isEmpty, (chunk.map Prod.fst).sum, (chunk.map Prod.snd).sum⟩, remaining)
  get_bbox := fun _ => none

/-- A toolpath of three lines, each contributing 2 vertices and 1 index. -/
def exampleToolpath : List (Int × Int) :=
  [(2, 1), (2, 1), (2, 1)]

/-- The replaying parser over the rationals, without a bounding box. -/
def exampleParser : GcodeParser (List Chunk) ℚ :=
  replayParser none

/-- The producer `nextChunkProducer` over the rationals. -/
def exampleProducer : GcodeParser (List (Int × Int)) ℚ :=
  nextChunkProducer

/-- The ready session of `readyRenderer`, switched to the bed-centered camera. -/
def bedCenteredRenderer : Renderer ℚ :=
  { readyRenderer with pointCameraAtPart := false }

/-- A bounding box on the bed of `readyRenderer`. -/
def exampleBox : BBox ℚ :=
  ⟨10, 110, 20, 90, 0, 30⟩

/-- A bounding box as wide and as deep as the bed of `readyRenderer`. -/
def bedSizedBox : BBox ℚ :=
  ⟨0, 365, 0, 350, 0, 30⟩

/-- The number of floats per vertex with which `Renderer::draw` wires a vertex
buffer: `glVertexAttribPointer` gets the stride `sizeof(float) * 6` for `DRAW_TUBES`
and `sizeof(float) * 3` otherwise. -/
def Renderer.floatsPerVertex (r : Renderer α) : Nat :=
  if r.drawType = DrawType.DRAW_TUBES then 6 else 3

/-- The position attribute of vertex `i` as `Renderer::draw` wires it: 3 floats at
offset 0 of the vertex. -/
def Renderer.vertexPosition (r : Renderer α) (vertices : List α) (i : Nat) : Option (Vec3 α) :=
  match vertices[i * r.floatsPerVertex]?, vertices[i * r.floatsPerVertex + 1]?,
    vertices[i * r.floatsPerVertex + 2]? with
  | some x, some y, some z => some ⟨x, y, z⟩
  | _, _, _ => none

/-- The normal attribute of vertex `i` as `Renderer::draw` wires it for `DRAW_TUBES`:
3 floats at offset `3 * sizeof(float)` of the vertex.  Other draw types have none. -/
def Renderer.vertexNormal (r : Renderer α) (vertices : List α) (i : Nat) : Option (Vec3 α) :=
  if r.drawType = DrawType.DRAW_TUBES then
    match vertices[i * r.floatsPerVertex + 3]?, vertices[i * r.floatsPerVertex + 4]?,
      vertices[i * r.floatsPerVertex + 5]? with
    | some x, some y, some z => some ⟨x, y, z⟩
    | _, _, _ => none
  else none

/-- The triangles that `glDrawElements(GL_TRIANGLES, ...)` forms from an index array:
one for every three consecutive indices. -/
def triangles : List Int → List (Int × Int × Int)
  | a :: b :: c :: rest => (a, b, c) :: triangles rest
  | _ => []

/-- The ready session of `readyRenderer`, switched to `DRAW_TUBES`. -/
def tubesRenderer : Renderer ℚ :=
  { readyRenderer with drawType := DrawType.DRAW_TUBES }

theorem renderRest_zero (parser : GcodeParser σ α) (s : σ) (r : Renderer α) :
    Renderer.renderRest parser 0 s r = none := rfl

theorem renderRest_succ (parser : GcodeParser σ α) (fuel : Nat) (s : σ) (r : Renderer α) :
    Renderer.renderRest parser (fuel + 1) s r =
      if (parser.get_vertices r.linesPerRun s).1.ret then
        Renderer.renderRest parser fuel (parser.get_vertices r.linesPerRun s).2
          (r.turn (parser.get_vertices r.linesPerRun s).1)
      else some ((parser.get_vertices r.linesPerRun s).2,
        r.pulled (parser.get_vertices r.linesPerRun s).1) := rfl

theorem renderPart_eq [LinearOrderedField α] (parser : GcodeParser σ α) (fuel : Nat) (s : σ)
    (r : Renderer α) :
    Renderer.renderPart parser fuel s r =
      Renderer.renderRest parser fuel (parser.get_vertices r.linesPerRun s).2
        (r.firstChunk parser s) := rfl

@[simp] theorem turn_linesPerRun (r : Renderer α) (c : Chunk) :
    (r.turn c).linesPerRun = r.linesPerRun := rfl

@[simp] theorem turn_partColor (r : Renderer α) (c : Chunk) :
    (r.turn c).partColor = r.partColor := rfl

@[simp] theorem turn_partElementType (r : Renderer α) (c : Chunk) :
    (r.turn c).partElementType = r.partElementType := rfl

@[simp] theorem turn_bedBuffer (r : Renderer α) (c : Chunk) :
    (r.turn c).bedBuffer = r.bedBuffer := rfl

@[simp] theorem turn_bedColor (r : Renderer α) (c : Chunk) :
    (r.turn c).bedColor = r.bedColor := rfl

@[simp] theorem turn_genBuffers (r : Renderer α) (c : Chunk) :
    (r.turn c).genBuffers = r.genBuffers + 2 := rfl

theorem turn_calls (r : Renderer α) (c : Chunk) :
    (r.turn c).calls = r.calls ++ r.turnCalls c := by
  simp [Renderer.turn, Renderer.renderChunk, Renderer.pulled, Renderer.buffer, Renderer.draw,
    Renderer.deleteBuffer, Renderer.turnCalls, Renderer.bufferInfo, Renderer.partElementType]

theorem foldl_turn_linesPerRun (cs : List Chunk) (r : Renderer α) :
    (cs.foldl Renderer.turn r).linesPerRun = r.linesPerRun := by
  induction cs generalizing r with
  | nil => rfl
  | cons c cs ih => simp [ih]

theorem foldl_turn_bedBuffer (cs : List Chunk) (r : Renderer α) :
    (cs.foldl Renderer.turn r).bedBuffer = r.bedBuffer := by
  induction cs generalizing r with
  | nil => rfl
  | cons c cs ih => simp [ih]

theorem foldl_turn_width (cs : List Chunk) (r : Renderer α) :
    (cs.foldl Renderer.turn r).width = r.width := by
  induction cs generalizing r with
  | nil => rfl
  | cons c cs ih => simp [ih, Renderer.turn, Renderer.renderChunk, Renderer.pulled,
      Renderer.buffer, Renderer.draw, Renderer.deleteBuffer]

theorem foldl_turn_height (cs : List Chunk) (r : Renderer α) :
    (cs.foldl Renderer.turn r).height = r.height := by
  induction cs generalizing r with
  | nil => rfl
  | cons c cs ih => simp [ih, Renderer.turn, Renderer.renderChunk, Renderer.pulled,
      Renderer.buffer, Renderer.draw, Renderer.deleteBuffer]

theorem foldl_turn_bedColor (cs : List Chunk) (r : Renderer α) :
    (cs.foldl Renderer.turn r).bedColor = r.bedColor := by
  induction cs generalizing r with
  | nil => rfl
  | cons c cs ih => simp [ih]

theorem foldl_turn_genBuffers (cs : List Chunk) (r : Renderer α) :
    (cs.foldl Renderer.turn r).genBuffers = r.genBuffers + 2 * cs.length := by
  induction cs generalizing r with
  | nil => rfl
  | cons c cs ih => simp [ih]; omega

theorem pulls_succ (parser : GcodeParser σ α) (n k : Nat) (s : σ) :
    GcodeParser.pulls parser n (k + 1) s =
      (parser.get_vertices n s).1 ::
        GcodeParser.pulls parser n k (parser.get_vertices n s).2 := rfl

@[simp] theorem firstChunk_linesPerRun [LinearOrderedField α] (r : Renderer α)
    (parser : GcodeParser σ α) (s : σ) :
    (r.firstChunk parser s).linesPerRun = r.linesPerRun := rfl

@[simp] theorem firstChunk_bedBuffer [LinearOrderedField α] (r : Renderer α)
    (parser : GcodeParser σ α) (s : σ) :
    (r.firstChunk parser s).bedBuffer = r.bedBuffer := rfl

@[simp] theorem firstChunk_bedColor [LinearOrderedField α] (r : Renderer α)
    (parser : GcodeParser σ α) (s : σ) :
    (r.firstChunk parser s).bedColor = r.bedColor := rfl

@[simp] theorem firstChunk_partColor [LinearOrderedField α] (r : Renderer α)
    (parser : GcodeParser σ α) (s : σ) :
    (r.firstChunk parser s).partColor = r.partColor := rfl

@[simp] theorem firstChunk_partElementType [LinearOrderedField α] (r : Renderer α)
    (parser : GcodeParser σ α) (s : σ) :
    (r.firstChunk parser s).partElementType = r.partElementType := rfl

@[simp] theorem firstChunk_width [LinearOrderedField α] (r : Renderer α)
    (parser : GcodeParser σ α) (s : σ) :
    (r.firstChunk parser s).width = r.width := rfl

@[simp] theorem firstChunk_height [LinearOrderedField α] (r : Renderer α)
    (parser : GcodeParser σ α) (s : σ) :
    (r.firstChunk parser s).height = r.height := rfl

@[simp] theorem firstChunk_genBuffers [LinearOrderedField α] (r : Renderer α)
    (parser : GcodeParser σ α) (s : σ) :
    (r.firstChunk parser s).genBuffers = r.genBuffers + 2 := rfl

theorem foldl_turn_calls (cs : List Chunk) (r : Renderer α) :
    (cs.foldl Renderer.turn r).calls = r.calls ++ r.turnsCalls cs := by
  induction cs generalizing r with
  | nil => simp [Renderer.turnsCalls]
  | cons c cs ih => simp [ih, turn_calls, Renderer.turnsCalls]

/-- The loop of `renderPart` returns once the parser returns `false`: with more
fuel than chunks it has run one turn per chunk and recorded the last read. -/
theorem renderRest_of_pulls (parser : GcodeParser σ α) (rest : List Chunk) (last : Chunk) :
    ∀ (fuel : Nat) (s : σ) (r : Renderer α),
      GcodeParser.pulls parser r.linesPerRun (rest.length + 1) s = rest ++ [last] →
      (∀ c ∈ rest, c.ret = true) → last.ret = false → rest.length < fuel →
      Renderer.renderRest parser fuel s r =
        some (GcodeParser.after parser r.linesPerRun (rest.length + 1) s,
          (rest.foldl Renderer.turn r).pulled last) := by
  induction rest with
  | nil =>
    intro fuel s r hp _ hl hf
    obtain ⟨fuel, rfl⟩ : ∃ f, fuel = f + 1 := ⟨fuel - 1, by simp at hf; omega⟩
    simp only [GcodeParser.pulls, List.length_nil, List.nil_append, List.cons.injEq,
      and_true] at hp
    simp [renderRest_succ, hp, hl, GcodeParser.after]
  | cons c cs ih =>
    intro fuel s r hp ht hl hf
    obtain ⟨fuel, rfl⟩ : ∃ f, fuel = f + 1 := ⟨fuel - 1, by simp at hf; omega⟩
    simp only [List.length_cons, GcodeParser.pulls, List.cons_append, List.cons.injEq] at hp
    obtain ⟨hc, hp⟩ := hp
    have hct : c.ret = true := ht c (List.mem_cons_self _ _)
    have := ih fuel (parser.get_vertices r.linesPerRun s).2 (r.turn c)
      (by simpa using hp) (fun x hx => ht x (List.mem_cons_of_mem _ hx)) hl
      (by simp at hf; omega)
    rw [renderRest_succ, hc, if_pos hct, this]
    simp [GcodeParser.after]

/-! ## Lemmas on the trace -/

theorem uploaded_append (xs ys : List (Call α)) :
    uploaded (xs ++ ys) = uploaded xs ++ uploaded ys := by
  induction xs with
  | nil => rfl
  | cons x xs ih => cases x <;> simp [uploaded, ih]

theorem drawn_append (xs ys : List (Call α)) :
    drawn (xs ++ ys) = drawn xs ++ drawn ys := by
  induction xs with
  | nil => rfl
  | cons x xs ih => cases x <;> simp [drawn, ih]

theorem turnsCalls_filter_isSetCamera (cs : List Chunk) (r : Renderer α) :
    (r.turnsCalls cs).filter Call.isSetCamera = [] := by
  induction cs generalizing r with
  | nil => rfl
  | cons c cs ih => simp [Renderer.turnsCalls, Renderer.turnCalls, Call.isSetCamera, ih]

theorem turnsCalls_filter_isDraw (cs : List Chunk) (r : Renderer α) :
    (r.turnsCalls cs).filter Call.isDraw =
      (r.turnsBuffers cs).map fun b => Call.draw r.partColor b r.partElementType := by
  induction cs generalizing r with
  | nil => rfl
  | cons c cs ih =>
    simp [Renderer.turnsCalls, Renderer.turnCalls, Renderer.turnsBuffers, Call.isDraw, ih]

theorem turnsCalls_filter_isBufferCall (cs : List Chunk) (r : Renderer α) :
    (r.turnsCalls cs).filter Call.isBufferCall =
      (r.turnsBuffers cs).flatMap fun b =>
        [Call.buffer b, Call.draw r.partColor b r.partElementType, Call.deleteBuffer b] := by
  induction cs generalizing r with
  | nil => rfl
  | cons c cs ih =>
    simp [Renderer.turnsCalls, Renderer.turnCalls, Renderer.turnsBuffers, Call.isBufferCall, ih]

theorem turnsCalls_uploaded (cs : List Chunk) (r : Renderer α) :
    uploaded (r.turnsCalls cs) = r.turnsBuffers cs := by
  induction cs generalizing r with
  | nil => rfl
  | cons c cs ih =>
    simp [Renderer.turnsCalls, Renderer.turnCalls, Renderer.turnsBuffers, uploaded, ih]

theorem turnsCalls_drawn (cs : List Chunk) (r : Renderer α) :
    drawn (r.turnsCalls cs) = r.turnsBuffers cs := by
  induction cs generalizing r with
  | nil => rfl
  | cons c cs ih =>
    simp [Renderer.turnsCalls, Renderer.turnCalls, Renderer.turnsBuffers, drawn, ih]

theorem turnsBuffers_counts (cs : List Chunk) (r : Renderer α) :
    (r.turnsBuffers cs).map (fun b => (b.nVertices, b.nIndices)) =
      cs.map fun c => (c.nVertices, c.nIndices) := by
  induction cs generalizing r with
  | nil => rfl
  | cons c cs ih => simp [Renderer.turnsBuffers, Renderer.bufferInfo, ih]

theorem firstChunk_calls [LinearOrderedField α] (r : Renderer α) (parser : GcodeParser σ α)
    (s : σ) :
    (r.firstChunk parser s).calls = r.calls ++
      [Call.get_vertices r.linesPerRun (parser.get_vertices r.linesPerRun s).1,
       Call.buffer (r.firstBuffer parser s),
       Call.setCamera (r.cameraState (parser.get_bbox (parser.get_vertices r.linesPerRun s).2)),
       Call.draw r.partColor (r.firstBuffer parser s) r.partElementType,
       Call.deleteBuffer (r.firstBuffer parser s)] := by
  simp only [Renderer.firstChunk, Renderer.pulled, Renderer.buffer, Renderer.setCamera,
    Renderer.draw, Renderer.deleteBuffer, List.append_assoc, List.cons_append,
    List.nil_append]
  rfl

/-- With more fuel than chunks `renderPart` returns, and its calls are `partCalls`. -/
theorem renderPart_run [LinearOrderedField α] (parser : GcodeParser σ α) (s : σ)
    (r : Renderer α) (first : Chunk) (rest : List Chunk) (last : Chunk) (fuel : Nat)
    (hyield : parser.Yields r.linesPerRun s first rest last) (hfuel : rest.length < fuel) :
    (parser.get_vertices r.linesPerRun s).1 = first ∧
    ∃ (s' : σ) (r' : Renderer α),
      Renderer.renderPart parser fuel s r = some (s', r') ∧
      r'.calls = r.calls ++ r.partCalls parser s rest last ∧
      r'.bedBuffer = r.bedBuffer ∧ r'.bedColor = r.bedColor ∧
      r'.genBuffers = r.genBuffers + 2 * (rest.length + 1) ∧
      r'.width = r.width ∧ r'.height = r.height := by
  obtain ⟨hp, ht, hl⟩ := hyield
  rw [pulls_succ, List.cons.injEq] at hp
  obtain ⟨h1, hp⟩ := hp
  have hrun := renderRest_of_pulls parser rest last fuel
    (parser.get_vertices r.linesPerRun s).2 (r.firstChunk parser s) hp ht hl hfuel
  rw [← renderPart_eq] at hrun
  refine ⟨h1, _, _, hrun, ?_, ?_, ?_, ?_, ?_, ?_⟩
  · simp [Renderer.pulled, foldl_turn_calls, firstChunk_calls, Renderer.partCalls,
      foldl_turn_linesPerRun]
  · simp [Renderer.pulled, foldl_turn_bedBuffer]
  · simp [Renderer.pulled, foldl_turn_bedColor]
  · simp [Renderer.pulled, foldl_turn_genBuffers]
    omega
  · simp [Renderer.pulled, foldl_turn_width]
  · simp [Renderer.pulled, foldl_turn_height]

theorem partCalls_filter_isSetCamera [LinearOrderedField α] (r : Renderer α)
    (parser : GcodeParser σ α) (s : σ) (rest : List Chunk) (last : Chunk) :
    (r.partCalls parser s rest last).filter Call.isSetCamera =
      [Call.setCamera
        (r.cameraState (parser.get_bbox (parser.get_vertices r.linesPerRun s).2))] := by
  simp [Renderer.partCalls, Call.isSetCamera, turnsCalls_filter_isSetCamera]

theorem partCalls_filter_isDraw [LinearOrderedField α] (r : Renderer α)
    (parser : GcodeParser σ α) (s : σ) (rest : List Chunk) (last : Chunk) :
    (r.partCalls parser s rest last).filter Call.isDraw =
      (r.partBuffers parser s rest).map fun b => Call.draw r.partColor b r.partElementType := by
  simp [Renderer.partCalls, Renderer.partBuffers, Call.isDraw, turnsCalls_filter_isDraw]

theorem partCalls_filter_isBufferCall [LinearOrderedField α] (r : Renderer α)
    (parser : GcodeParser σ α) (s : σ) (rest : List Chunk) (last : Chunk) :
    (r.partCalls parser s rest last).filter Call.isBufferCall =
      (r.partBuffers parser s rest).flatMap fun b =>
        [Call.buffer b, Call.draw r.partColor b r.partElementType, Call.deleteBuffer b] := by
  simp [Renderer.partCalls, Renderer.partBuffers, Call.isBufferCall,
    turnsCalls_filter_isBufferCall]

theorem partCalls_uploaded [LinearOrderedField α] (r : Renderer α)
    (parser : GcodeParser σ α) (s : σ) (rest : List Chunk) (last : Chunk) :
    uploaded (r.partCalls parser s rest last) = r.partBuffers parser s rest := by
  simp [Renderer.partCalls, Renderer.partBuffers, uploaded, uploaded_append,
    turnsCalls_uploaded]

theorem partCalls_drawn [LinearOrderedField α] (r : Renderer α)
    (parser : GcodeParser σ α) (s : σ) (rest : List Chunk) (last : Chunk) :
    drawn (r.partCalls parser s rest last) = r.partBuffers parser s rest := by
  simp [Renderer.partCalls, Renderer.partBuffers, drawn, drawn_append, turnsCalls_drawn]

theorem partBuffers_counts [LinearOrderedField α] (r : Renderer α)
    (parser : GcodeParser σ α) (s : σ) (rest : List Chunk) :
    (r.partBuffers parser s rest).map (fun b => (b.nVertices, b.nIndices)) =
      ((parser.get_vertices r.linesPerRun s).1 :: rest).map
        fun c => (c.nVertices, c.nIndices) := by
  simp [Renderer.partBuffers, Renderer.firstBuffer, Renderer.bufferInfo, turnsBuffers_counts]

/-! ## Lemmas on the buffers that are alive -/

theorem alive_append (xs ys : List (Call α)) :
    alive (xs ++ ys) = ys.foldl aliveStep (alive xs) := by
  simp [alive, List.foldl_append]

theorem Transient.append {live : List BufferInfo} {xs ys : List (Call α)}
    (hx : Transient live xs) (hy : Transient live ys) : Transient live (xs ++ ys) := by
  refine ⟨fun k => ?_, ?_⟩
  · rw [List.take_append_eq_append_take, List.foldl_append]
    rcases Nat.lt_or_ge k xs.length with hk | hk
    · have : k - xs.length = 0 := by omega
      rw [this, List.take_zero, List.foldl_nil]
      exact hx.1 k
    · rw [List.take_of_length_le hk, hx.2]
      exact hy.1 _
  · rw [List.foldl_append, hx.2, hy.2]

theorem filter_not_deletedBy (live : List BufferInfo) (b : BufferInfo)
    (hfresh : ∀ x ∈ live, x.deletedBy b = false) :
    (live ++ [b]).filter (fun x => !x.deletedBy b) = live := by
  rw [List.filter_append]
  have h1 : live.filter (fun x => !x.deletedBy b) = live := by
    apply List.filter_eq_self.2
    intro x hx
    simp [hfresh x hx]
  have h2 : [b].filter (fun x => !x.deletedBy b) = [] := by
    simp [BufferInfo.deletedBy]
  rw [h1, h2, List.append_nil]

theorem bufferInfo_fresh (r : Renderer α) (nVertices nIndices : Int) (x : BufferInfo)
    (hv : x.vertexBuffer ≤ r.genBuffers) (hi : x.indexBuffer ≤ r.genBuffers) :
    x.deletedBy (r.bufferInfo nVertices nIndices) = false := by
  simp [BufferInfo.deletedBy, Renderer.bufferInfo]
  omega

theorem transient_turnCalls (r : Renderer α) (c : Chunk) (live : List BufferInfo)
    (hlive : ∀ x ∈ live, x.vertexBuffer ≤ r.genBuffers ∧ x.indexBuffer ≤ r.genBuffers) :
    Transient live (r.turnCalls c) := by
  have hdel := filter_not_deletedBy live (r.bufferInfo c.nVertices c.nIndices)
    (fun x hx => bufferInfo_fresh r _ _ x (hlive x hx).1 (hlive x hx).2)
  refine ⟨fun k => ?_, ?_⟩
  · match k with
    | 0 => left; rfl
    | 1 => left; rfl
    | 2 => right; exact ⟨_, rfl⟩
    | 3 => right; exact ⟨_, rfl⟩
    | k + 4 =>
      left
      simpa [Renderer.turnCalls, aliveStep] using hdel
  · simpa [Renderer.turnCalls, aliveStep] using hdel

theorem transient_turnsCalls (cs : List Chunk) (r : Renderer α) (live : List BufferInfo)
    (hlive : ∀ x ∈ live, x.vertexBuffer ≤ r.genBuffers ∧ x.indexBuffer ≤ r.genBuffers) :
    Transient live (r.turnsCalls cs) := by
  induction cs generalizing r with
  | nil => exact ⟨fun k => Or.inl (by simp [Renderer.turnsCalls]), rfl⟩
  | cons c cs ih =>
    refine (transient_turnCalls r c live hlive).append (ih (r.turn c) ?_)
    intro x hx
    have := hlive x hx
    simp only [turn_genBuffers]
    omega

theorem transient_partCalls [LinearOrderedField α] (r : Renderer α)
    (parser : GcodeParser σ α) (s : σ) (rest : List Chunk) (last : Chunk)
    (live : List BufferInfo)
    (hlive : ∀ x ∈ live, x.vertexBuffer ≤ r.genBuffers ∧ x.indexBuffer ≤ r.genBuffers) :
    Transient live (r.partCalls parser s rest last) := by
  have hdel := filter_not_deletedBy live (r.firstBuffer parser s)
    (fun x hx => bufferInfo_fresh r _ _ x (hlive x hx).1 (hlive x hx).2)
  have hfirst : Transient live
      [Call.get_vertices r.linesPerRun (parser.get_vertices r.linesPerRun s).1,
       Call.buffer (r.firstBuffer parser s),
       Call.setCamera
         (r.cameraState (parser.get_bbox (parser.get_vertices r.linesPerRun s).2)),
       Call.draw r.partColor (r.firstBuffer parser s) r.partElementType,
       Call.deleteBuffer (r.firstBuffer parser s)] := by
    refine ⟨fun k => ?_, ?_⟩
    · match k with
      | 0 => left; rfl
      | 1 => left; rfl
      | 2 => right; exact ⟨_, rfl⟩
      | 3 => right; exact ⟨_, rfl⟩
      | 4 => right; exact ⟨_, rfl⟩
      | k + 5 =>
        left
        simpa [aliveStep] using hdel
    · simpa [aliveStep] using hdel
  have hlast : Transient live [(Call.get_vertices r.linesPerRun last : Call α)] := by
    refine ⟨fun k => Or.inl ?_, rfl⟩
    cases k <;> simp [aliveStep]
  have hturns : Transient live ((r.firstChunk parser s).turnsCalls rest) := by
    apply transient_turnsCalls
    intro x hx
    have := hlive x hx
    simp only [firstChunk_genBuffers]
    omega
  exact hfirst.append (hturns.append hlast)

theorem saveRenderCalls_filter_isSetCamera (r : Renderer α) (rows : Option (List Int)) :
    (r.saveRenderCalls rows).filter Call.isSetCamera = [] := by
  cases rows <;> rfl

theorem saveRenderCalls_filter_isDraw (r : Renderer α) (rows : Option (List Int)) :
    (r.saveRenderCalls rows).filter Call.isDraw = [] := by
  cases rows <;> rfl

theorem saveRenderCalls_uploaded (r : Renderer α) (rows : Option (List Int)) :
    uploaded (r.saveRenderCalls rows) = [] := by
  cases rows <;> rfl

theorem uploaded_bed_saveRender (r : Renderer α) (rows : Option (List Int))
    (color : Color α) (info : BufferInfo) (element_type : ElementType) :
    uploaded (Call.draw color info element_type :: r.saveRenderCalls rows) = [] := by
  cases rows <;> rfl

theorem saveRenderCalls_alive (r : Renderer α) (rows : Option (List Int))
    (live : List BufferInfo) :
    (r.saveRenderCalls rows).foldl aliveStep live = live := by
  cases rows <;> rfl

/-- After `initialize` a session that had no buffer alive is ready. -/
theorem ready_initialise [LinearOrderedField α] (r : Renderer α) (h : alive r.calls = []) :
    r.initialise.Ready := by
  refine ⟨?_, ?_, ?_⟩
  · show alive (r.calls ++ [Call.buffer _]) = _
    rw [alive_append, h]
    rfl
  · show r.genBuffers + 1 ≤ r.genBuffers + 2
    omega
  · exact le_refl _

/-! ## The order of the calls of one render (C1) -/

/-- With more fuel than chunks `renderGcode` returns; its calls are `glClear`,
the calls of `renderPart`, the bed draw and the calls of `saveRender`. -/
theorem renderGcode_run [LinearOrderedField α] (parser : GcodeParser σ α) (s : σ)
    (r : Renderer α) (first : Chunk) (rest : List Chunk) (last : Chunk) (fuel : Nat)
    (hyield : parser.Yields r.linesPerRun s first rest last) (hfuel : rest.length < fuel) :
    ∃ (s' : σ) (r' : Renderer α),
      Renderer.renderGcode parser fuel s r = some (s', r') ∧
      r'.calls = r.calls ++ ([Call.glClear] ++ r.glClear.partCalls parser s rest last ++
        (Call.draw r.bedColor r.bedBuffer ElementType.GL_TRIANGLES ::
          r.saveRenderCalls (saveRender_rows r.width r.height))) ∧
      r'.bedBuffer = r.bedBuffer ∧ r'.genBuffers = r.genBuffers + 2 * (rest.length + 1) := by
  obtain ⟨_, s', r', hrun, hcalls, hbed, hcol, hgen, hw, hh⟩ :=
    renderPart_run parser s r.glClear first rest last fuel hyield hfuel
  have hw' : r'.renderBed.width = r.width := hw
  have hh' : r'.renderBed.height = r.height := hh
  have hsave : ∀ rows, (r'.renderBed).saveRenderCalls rows = r.saveRenderCalls rows := by
    intro rows
    cases rows with
    | none => rfl
    | some l =>
      show [Call.glFlush, Call.glFinish,
        Call.glReadPixels r'.renderBed.width r'.renderBed.height, Call.png_set_rows l] = _
      rw [hw', hh']
      rfl
  have hcalls' : ((r'.renderBed).saveRender).calls =
      r'.calls ++ (Call.draw r'.bedColor r'.bedBuffer ElementType.GL_TRIANGLES ::
        r.saveRenderCalls (saveRender_rows r.width r.height)) := by
    show (r'.calls ++ [Call.draw r'.bedColor r'.bedBuffer ElementType.GL_TRIANGLES]) ++
      (r'.renderBed).saveRenderCalls
        (saveRender_rows r'.renderBed.width r'.renderBed.height) = _
    rw [hw', hh', hsave, List.append_assoc]
    rfl
  refine ⟨s', (r'.renderBed).saveRender, ?_, ?_, hbed, hgen⟩
  · simp only [Renderer.renderGcode, hrun]
  · rw [hcalls', hcalls, hbed, hcol]
    show ((r.calls ++ [Call.glClear]) ++ _) ++ _ = _
    simp only [List.append_assoc]
    rfl

/-- A ready session is ready again after `renderGcode`: it can render the next file. -/
theorem ready_renderGcode [LinearOrderedField α] (parser : GcodeParser σ α) (s : σ)
    (r : Renderer α) (first : Chunk) (rest : List Chunk) (last : Chunk) (fuel : Nat)
    (hready : r.Ready)
    (hyield : parser.Yields r.linesPerRun s first rest last) (hfuel : rest.length < fuel) :
    ∃ (s' : σ) (r' : Renderer α),
      Renderer.renderGcode parser fuel s r = some (s', r') ∧ r'.Ready := by
  obtain ⟨s', r', hrun, hcalls, hbed, hgen⟩ :=
    renderGcode_run parser s r first rest last fuel hyield hfuel
  obtain ⟨halive, hv, hi⟩ := hready
  have htrans : Transient [r.bedBuffer] (r.glClear.partCalls parser s rest last) := by
    apply transient_partCalls
    intro x hx
    rw [List.mem_singleton] at hx
    subst hx
    exact ⟨hv, hi⟩
  refine ⟨s', r', hrun, ?_, ?_, ?_⟩
  · rw [hcalls, hbed, alive_append, halive, List.foldl_append, List.foldl_append]
    show List.foldl aliveStep (List.foldl aliveStep [r.bedBuffer] _) _ = _
    rw [htrans.2, List.foldl_cons]
    exact saveRenderCalls_alive r _ _
  · rw [hbed, hgen]
    omega
  · rw [hbed, hgen]
    omega

/-- C1: whatever stream the parser yields (a first chunk, any number of further
chunks, then `false`), `renderGcode` returns, and among the calls it issues there is
exactly one `setCamera`, with the camera of the bounding box that the parser reports
after the first chunk; that call comes after the first `get_vertices` and no draw
precedes it; the draw calls are the part-chunk draws, one per uploaded chunk in the
order in which the chunks were read, followed by the bed draw, which is last. -/
theorem C1_renderGcode_call_order [LinearOrderedField α] (parser : GcodeParser σ α) (s : σ)
    (r : Renderer α) (first : Chunk) (rest : List Chunk) (last : Chunk) (fuel : Nat)
    (hyield : parser.Yields r.linesPerRun s first rest last) (hfuel : rest.length < fuel) :
    ∃ (s' : σ) (r' : Renderer α) (issued : List (Call α)),
      Renderer.renderGcode parser fuel s r = some (s', r') ∧ r'.calls = r.calls ++ issued ∧
      (issued.filter Call.isSetCamera).length = 1 ∧
      (∃ (before : List (Call α)) (cam : Camera α) (after : List (Call α)),
        issued = before ++ Call.setCamera cam :: after ∧
        cam = r.cameraState (parser.get_bbox (parser.get_vertices r.linesPerRun s).2) ∧
        Call.get_vertices r.linesPerRun first ∈ before ∧
        ∀ c ∈ before, c.isDraw = false) ∧
      (∃ buffs : List BufferInfo,
        uploaded issued = buffs ∧
        buffs.map (fun b => (b.nVertices, b.nIndices)) =
          (first :: rest).map (fun c => (c.nVertices, c.nIndices)) ∧
        issued.filter Call.isDraw =
          buffs.map (fun b => Call.draw r.partColor b r.partElementType) ++
            [Call.draw r.bedColor r.bedBuffer ElementType.GL_TRIANGLES]) := by
  obtain ⟨s', r', hrun, hcalls, _⟩ :=
    renderGcode_run parser s r first rest last fuel hyield hfuel
  have hfirst : (parser.get_vertices r.linesPerRun s).1 = first := by
    have hp := hyield.1
    rw [pulls_succ, List.cons.injEq] at hp
    exact hp.1
  refine ⟨s', r', _, hrun, hcalls, ?_, ?_, ?_⟩
  · rw [List.filter_append, List.filter_append, partCalls_filter_isSetCamera]
    simp [Call.isSetCamera, List.filter_cons, saveRenderCalls_filter_isSetCamera]
  · refine ⟨[Call.glClear, Call.get_vertices r.linesPerRun first,
      Call.buffer (r.glClear.firstBuffer parser s)],
      r.glClear.cameraState (parser.get_bbox (parser.get_vertices r.linesPerRun s).2),
      Call.draw r.partColor (r.glClear.firstBuffer parser s) r.partElementType ::
        Call.deleteBuffer (r.glClear.firstBuffer parser s) ::
        (((r.glClear.firstChunk parser s).turnsCalls rest ++
          [Call.get_vertices r.linesPerRun last]) ++
        (Call.draw r.bedColor r.bedBuffer ElementType.GL_TRIANGLES ::
          r.saveRenderCalls (saveRender_rows r.width r.height))),
      ?_, rfl, ?_, ?_⟩
    · simp only [Renderer.partCalls, List.cons_append, List.nil_append]
      rw [show r.glClear.linesPerRun = r.linesPerRun from rfl, hfirst]
      rfl
    · simp
    · intro c hc
      simp at hc
      rcases hc with rfl | rfl | rfl <;> rfl
  · refine ⟨r.glClear.partBuffers parser s rest, ?_, ?_, ?_⟩
    · rw [uploaded_append, uploaded_append, partCalls_uploaded, uploaded_bed_saveRender]
      show ([] ++ _) ++ [] = _
      simp
    · rw [partBuffers_counts, show r.glClear.linesPerRun = r.linesPerRun from rfl, hfirst]
    · rw [List.filter_append, List.filter_append, partCalls_filter_isDraw]
      simp [Call.isDraw, List.filter_cons, saveRenderCalls_filter_isDraw]
      intro _ _
      exact ⟨rfl, rfl⟩

/-- C1 on the replayed stream `exampleStream` in the session `readyRenderer`. -/
theorem C1_renderGcode_call_order_witness :
    exampleParser.Yields readyRenderer.linesPerRun exampleStream
        ⟨true, 6, 4⟩ [⟨true, 3, 2⟩] ⟨false, 0, 0⟩ ∧
    ∃ (s' : List Chunk) (r' : Renderer ℚ) (issued : List (Call ℚ)),
      Renderer.renderGcode exampleParser 2 exampleStream readyRenderer = some (s', r') ∧
      r'.calls = readyRenderer.calls ++ issued ∧
      (issued.filter Call.isSetCamera).length = 1 ∧
      (∃ (before : List (Call ℚ)) (cam : Camera ℚ) (after : List (Call ℚ)),
        issued = before ++ Call.setCamera cam :: after ∧
        cam = readyRenderer.cameraState
          (exampleParser.get_bbox
            (exampleParser.get_vertices readyRenderer.linesPerRun exampleStream).2) ∧
        Call.get_vertices readyRenderer.linesPerRun ⟨true, 6, 4⟩ ∈ before ∧
        ∀ c ∈ before, c.isDraw = false) ∧
      (∃ buffs : List BufferInfo,
        uploaded issued = buffs ∧
        buffs.map (fun b => (b.nVertices, b.nIndices)) =
          ([⟨true, 6, 4⟩, ⟨true, 3, 2⟩] : List Chunk).map (fun c => (c.nVertices, c.nIndices)) ∧
        issued.filter Call.isDraw =
          buffs.map (fun b => Call.draw readyRenderer.partColor b readyRenderer.partElementType) ++
            [Call.draw readyRenderer.bedColor readyRenderer.bedBuffer
              ElementType.GL_TRIANGLES]) :=
  ⟨⟨rfl, by decide, rfl⟩,
    C1_renderGcode_call_order exampleParser exampleStream readyRenderer
      ⟨true, 6, 4⟩ [⟨true, 3, 2⟩] ⟨false, 0, 0⟩ 2 ⟨rfl, by decide, rfl⟩ (by decide)⟩

/-! ## Totals streamed and drawn (C2) -/

/-- C2, as stated, fails.  The producer `exampleProducer` returns `hasMore`.  With
`linesPerRun = 1` it yields three chunks of 2 vertices and 1 index each, the third
with `hasMore = false`; `renderPart` returns having uploaded and drawn only the
first two (4 vertices, 2 indices, not 6 and 3).  With `linesPerRun = 3` the same
toolpath is one chunk and all 6 vertices and 3 indices are uploaded and drawn: the
totals depend on the chunk size. -/
theorem C2_hasMore_last_chunk_dropped :
    GcodeParser.pulls exampleProducer 1 3 exampleToolpath =
        [⟨true, 2, 1⟩, ⟨true, 2, 1⟩, ⟨false, 2, 1⟩] ∧
    (∃ (s' : List (Int × Int)) (r' : Renderer ℚ),
      Renderer.renderPart exampleProducer 5 exampleToolpath
          { readyRenderer with linesPerRun := 1 } = some (s', r') ∧
      ((uploaded (r'.calls.drop readyRenderer.calls.length)).map (·.nVertices)).sum = 4 ∧
      ((uploaded (r'.calls.drop readyRenderer.calls.length)).map (·.nIndices)).sum = 2 ∧
      ((drawn (r'.calls.drop readyRenderer.calls.length)).map (·.nVertices)).sum = 4 ∧
      ((drawn (r'.calls.drop readyRenderer.calls.length)).map (·.nIndices)).sum = 2) ∧
    GcodeParser.pulls exampleProducer 3 1 exampleToolpath = [⟨false, 6, 3⟩] ∧
    (∃ (s' : List (Int × Int)) (r' : Renderer ℚ),
      Renderer.renderPart exampleProducer 5 exampleToolpath
          { readyRenderer with linesPerRun := 3 } = some (s', r') ∧
      ((uploaded (r'.calls.drop readyRenderer.calls.length)).map (·.nVertices)).sum = 6 ∧
      ((uploaded (r'.calls.drop readyRenderer.calls.length)).map (·.nIndices)).sum = 3 ∧
      ((drawn (r'.calls.drop readyRenderer.calls.length)).map (·.nVertices)).sum = 6 ∧
      ((drawn (r'.calls.drop readyRenderer.calls.length)).map (·.nIndices)).sum = 3) := by
  refine ⟨rfl, ⟨_, _, rfl, ?_, ?_, ?_, ?_⟩, rfl, ⟨_, _, rfl, ?_, ?_, ?_, ?_⟩⟩ <;> rfl

/-- C2, amended: whatever stream the parser yields for the configured
`linesPerRun` (the first call stores `first`, the following calls return `true` and
store `rest`, the next call returns `false`), `renderPart` returns and has uploaded
and drawn, exactly once each and in this order, one buffer for `first` and one for
every chunk of `rest`; so the vertex and index totals uploaded and drawn are the
sums over `first :: rest`.  What the call that returned `false` stored is neither
uploaded nor drawn. -/
theorem C2_renderPart_totals [LinearOrderedField α] (parser : GcodeParser σ α) (s : σ)
    (r : Renderer α) (first : Chunk) (rest : List Chunk) (last : Chunk) (fuel : Nat)
    (hyield : parser.Yields r.linesPerRun s first rest last) (hfuel : rest.length < fuel) :
    ∃ (s' : σ) (r' : Renderer α) (issued : List (Call α)),
      Renderer.renderPart parser fuel s r = some (s', r') ∧ r'.calls = r.calls ++ issued ∧
      (uploaded issued).map (fun b => (b.nVertices, b.nIndices)) =
        (first :: rest).map (fun c => (c.nVertices, c.nIndices)) ∧
      drawn issued = uploaded issued ∧
      ((uploaded issued).map (·.nVertices)).sum = ((first :: rest).map (·.nVertices)).sum ∧
      ((uploaded issued).map (·.nIndices)).sum = ((first :: rest).map (·.nIndices)).sum ∧
      ((drawn issued).map (·.nVertices)).sum = ((first :: rest).map (·.nVertices)).sum ∧
      ((drawn issued).map (·.nIndices)).sum = ((first :: rest).map (·.nIndices)).sum := by
  obtain ⟨hfirst, s', r', hrun, hcalls, _⟩ :=
    renderPart_run parser s r first rest last fuel hyield hfuel
  have hcounts : (uploaded (r.partCalls parser s rest last)).map
      (fun b => (b.nVertices, b.nIndices)) =
      (first :: rest).map (fun c => (c.nVertices, c.nIndices)) := by
    rw [partCalls_uploaded, partBuffers_counts, hfirst]
  have hdrawn : drawn (r.partCalls parser s rest last) =
      uploaded (r.partCalls parser s rest last) := by
    rw [partCalls_uploaded, partCalls_drawn]
  have hv : ((uploaded (r.partCalls parser s rest last)).map (·.nVertices)).sum =
      ((first :: rest).map (·.nVertices)).sum := by
    have := congrArg (fun l => (l.map Prod.fst).sum) hcounts
    simpa [List.map_map, Function.comp_def] using this
  have hi : ((uploaded (r.partCalls parser s rest last)).map (·.nIndices)).sum =
      ((first :: rest).map (·.nIndices)).sum := by
    have := congrArg (fun l => (l.map Prod.snd).sum) hcounts
    simpa [List.map_map, Function.comp_def] using this
  exact ⟨s', r', _, hrun, hcalls, hcounts, hdrawn, hv, hi, hdrawn ▸ hv, hdrawn ▸ hi⟩

/-- C2, amended, on the replayed stream `exampleStream` in the session `readyRenderer`. -/
theorem C2_renderPart_totals_witness :
    exampleParser.Yields readyRenderer.linesPerRun exampleStream
        ⟨true, 6, 4⟩ [⟨true, 3, 2⟩] ⟨false, 0, 0⟩ ∧
    ∃ (s' : List Chunk) (r' : Renderer ℚ) (issued : List (Call ℚ)),
      Renderer.renderPart exampleParser 2 exampleStream readyRenderer = some (s', r') ∧
      r'.calls = readyRenderer.calls ++ issued ∧
      (uploaded issued).map (fun b => (b.nVertices, b.nIndices)) =
        ([⟨true, 6, 4⟩, ⟨true, 3, 2⟩] : List Chunk).map (fun c => (c.nVertices, c.nIndices)) ∧
      drawn issued = uploaded issued ∧
      ((uploaded issued).map (·.nVertices)).sum =
        (([⟨true, 6, 4⟩, ⟨true, 3, 2⟩] : List Chunk).map (·.nVertices)).sum ∧
      ((uploaded issued).map (·.nIndices)).sum =
        (([⟨true, 6, 4⟩, ⟨true, 3, 2⟩] : List Chunk).map (·.nIndices)).sum ∧
      ((drawn issued).map (·.nVertices)).sum =
        (([⟨true, 6, 4⟩, ⟨true, 3, 2⟩] : List Chunk).map (·.nVertices)).sum ∧
      ((drawn issued).map (·.nIndices)).sum =
        (([⟨true, 6, 4⟩, ⟨true, 3, 2⟩] : List Chunk).map (·.nIndices)).sum :=
  ⟨⟨rfl, by decide, rfl⟩,
    C2_renderPart_totals exampleParser exampleStream readyRenderer
      ⟨true, 6, 4⟩ [⟨true, 3, 2⟩] ⟨false, 0, 0⟩ 2 ⟨rfl, by decide, rfl⟩ (by decide)⟩

/-! ## Buffers alive during `renderPart` (C3) -/

/-- C3: in a ready session, whatever stream the parser yields, `renderPart` returns,
and after every call it issues the buffers alive are the bed buffer alone or the bed
buffer and one part-chunk buffer; the buffer calls come chunk by chunk as `buffer`,
`draw`, `deleteBuffer` (each buffer is deleted after its draw and before the next
upload); and when `renderPart` has returned the bed buffer alone is alive. -/
theorem C3_renderPart_one_chunk_buffer_alive [LinearOrderedField α]
    (parser : GcodeParser σ α) (s : σ) (r : Renderer α) (first : Chunk) (rest : List Chunk)
    (last : Chunk) (fuel : Nat) (hready : r.Ready)
    (hyield : parser.Yields r.linesPerRun s first rest last) (hfuel : rest.length < fuel) :
    ∃ (s' : σ) (r' : Renderer α) (issued : List (Call α)),
      Renderer.renderPart parser fuel s r = some (s', r') ∧ r'.calls = r.calls ++ issued ∧
      (∀ k, alive (r.calls ++ issued.take k) = [r.bedBuffer] ∨
        ∃ b, alive (r.calls ++ issued.take k) = [r.bedBuffer, b]) ∧
      (∃ buffs : List BufferInfo,
        buffs.map (fun b => (b.nVertices, b.nIndices)) =
          (first :: rest).map (fun c => (c.nVertices, c.nIndices)) ∧
        issued.filter Call.isBufferCall = buffs.flatMap fun b =>
          [Call.buffer b, Call.draw r.partColor b r.partElementType, Call.deleteBuffer b]) ∧
      alive r'.calls = [r.bedBuffer] := by
  obtain ⟨hfirst, s', r', hrun, hcalls, _⟩ :=
    renderPart_run parser s r first rest last fuel hyield hfuel
  obtain ⟨halive, hv, hi⟩ := hready
  have htrans : Transient [r.bedBuffer] (r.partCalls parser s rest last) := by
    apply transient_partCalls
    intro x hx
    rw [List.mem_singleton] at hx
    subst hx
    exact ⟨hv, hi⟩
  refine ⟨s', r', _, hrun, hcalls, ?_, ?_, ?_⟩
  · intro k
    rw [alive_append, halive]
    exact htrans.1 k
  · refine ⟨r.partBuffers parser s rest, ?_, partCalls_filter_isBufferCall r parser s rest last⟩
    rw [partBuffers_counts, hfirst]
  · rw [hcalls, alive_append, halive]
    exact htrans.2

/-- C3 on the replayed stream `exampleStream` in the session `readyRenderer`, which
is ready. -/
theorem C3_renderPart_one_chunk_buffer_alive_witness :
    readyRenderer.Ready ∧
    exampleParser.Yields readyRenderer.linesPerRun exampleStream
        ⟨true, 6, 4⟩ [⟨true, 3, 2⟩] ⟨false, 0, 0⟩ ∧
    ∃ (s' : List Chunk) (r' : Renderer ℚ) (issued : List (Call ℚ)),
      Renderer.renderPart exampleParser 2 exampleStream readyRenderer = some (s', r') ∧
      r'.calls = readyRenderer.calls ++ issued ∧
      (∀ k, alive (readyRenderer.calls ++ issued.take k) = [readyRenderer.bedBuffer] ∨
        ∃ b, alive (readyRenderer.calls ++ issued.take k) = [readyRenderer.bedBuffer, b]) ∧
      (∃ buffs : List BufferInfo,
        buffs.map (fun b => (b.nVertices, b.nIndices)) =
          ([⟨true, 6, 4⟩, ⟨true, 3, 2⟩] : List Chunk).map (fun c => (c.nVertices, c.nIndices)) ∧
        issued.filter Call.isBufferCall = buffs.flatMap fun b =>
          [Call.buffer b, Call.draw readyRenderer.partColor b readyRenderer.partElementType,
           Call.deleteBuffer b]) ∧
      alive r'.calls = [readyRenderer.bedBuffer] :=
  ⟨⟨rfl, by decide, by decide⟩, ⟨rfl, by decide, rfl⟩,
    C3_renderPart_one_chunk_buffer_alive exampleParser exampleStream readyRenderer
      ⟨true, 6, 4⟩ [⟨true, 3, 2⟩] ⟨false, 0, 0⟩ 2 ⟨rfl, by decide, by decide⟩
      ⟨rfl, by decide, rfl⟩ (by decide)⟩

/-! ## Lemmas on the camera -/

/-- The field of view of the part-centered branch, as a function of the two factors. -/
theorem part_centered_fov_eq [LinearOrderedField α] (r : Renderer α) (bbox : BBox α)
    (hmode : r.pointCameraAtPart = true) :
    (r.cameraState (some bbox)).fov_deg =
      max 5 (max ((bbox.xmax - bbox.xmin) / r.bedWidth)
        ((bbox.ymax - bbox.ymin) / r.bedDepth) * 60) := by
  simp [Renderer.cameraState, Renderer.partFactors, hmode]

/-- A factor `1 - min a b / (w / 2)` lies in `[0, 1]` when both clearances are
non-negative and together at most the bed dimension `w`. -/
theorem factor_mem_unit [LinearOrderedField α] (a b w : α) (hw : 0 < w) (ha : 0 ≤ a)
    (hb : 0 ≤ b) (hab : a + b ≤ w) :
    0 ≤ 1 - min a b / (w / 2) ∧ 1 - min a b / (w / 2) ≤ 1 := by
  have hw2 : 0 < w / 2 := by positivity
  have hmin0 : 0 ≤ min a b := le_min ha hb
  have hminw : min a b ≤ w / 2 := by
    rcases le_total a b with h | h
    · rw [min_eq_left h]; linarith
    · rw [min_eq_right h]; linarith
  constructor
  · rw [sub_nonneg, div_le_one hw2]
    exact hminw
  · have : 0 ≤ min a b / (w / 2) := div_nonneg hmin0 hw2.le
    linarith

theorem exampleBox_ratio_le :
    max ((exampleBox.xmax - exampleBox.xmin) / readyRenderer.bedWidth)
        ((exampleBox.ymax - exampleBox.ymin) / readyRenderer.bedDepth) ≤
      max ((bedSizedBox.xmax - bedSizedBox.xmin) / readyRenderer.bedWidth)
        ((bedSizedBox.ymax - bedSizedBox.ymin) / readyRenderer.bedDepth) := by
  norm_num [readyRenderer, exampleBox, bedSizedBox, Renderer.initialise,
    Renderer.bufferBed, Renderer.buffer, Renderer.new]

theorem exampleBox_on_bed :
    exampleBox.xmax ≤ bedCenteredRenderer.bedWidth - bedCenteredRenderer.bedOriginOffset.x ∧
      exampleBox.ymax ≤
        bedCenteredRenderer.bedDepth - bedCenteredRenderer.bedOriginOffset.y := by
  norm_num [readyRenderer, bedCenteredRenderer, exampleBox, Renderer.initialise,
    Renderer.bufferBed, Renderer.buffer, Renderer.new]

theorem bedSizedBox_size :
    bedSizedBox.xmax - bedSizedBox.xmin = readyRenderer.bedWidth ∧
      bedSizedBox.ymax - bedSizedBox.ymin = readyRenderer.bedDepth := by
  norm_num [readyRenderer, bedSizedBox, Renderer.initialise,
    Renderer.bufferBed, Renderer.buffer, Renderer.new]

/-! ## Lemmas on the rows of `saveRender` -/

/-- C4: in part-centered mode, for a valid bounding box and a bed of non-zero width
and depth, the target of `setCamera` is the centre of the box and the field of view
is `max(5, max((xmax-xmin)/bedWidth, (ymax-ymin)/bedDepth) * 60)` degrees. -/
theorem C4_part_centered_target_and_fov [LinearOrderedField α] (r : Renderer α)
    (bbox : BBox α) (hmode : r.pointCameraAtPart = true)
    (_hw : r.bedWidth ≠ 0) (_hd : r.bedDepth ≠ 0) :
    (r.cameraState (some bbox)).cameraTarget =
        ⟨(bbox.xmin + bbox.xmax) / 2, (bbox.ymin + bbox.ymax) / 2,
          (bbox.zmin + bbox.zmax) / 2⟩ ∧
      (r.cameraState (some bbox)).fov_deg =
        max 5 (max ((bbox.xmax - bbox.xmin) / r.bedWidth)
          ((bbox.ymax - bbox.ymin) / r.bedDepth) * 60) := by
  simp [Renderer.cameraState, Renderer.partFactors, hmode, add_comm]

/-- C4 for `exampleBox` on the bed of `readyRenderer`. -/
theorem C4_part_centered_target_and_fov_witness :
    readyRenderer.pointCameraAtPart = true ∧ readyRenderer.bedWidth ≠ 0 ∧
      readyRenderer.bedDepth ≠ 0 ∧
      (readyRenderer.cameraState (some exampleBox)).cameraTarget =
        ⟨(exampleBox.xmin + exampleBox.xmax) / 2, (exampleBox.ymin + exampleBox.ymax) / 2,
          (exampleBox.zmin + exampleBox.zmax) / 2⟩ ∧
      (readyRenderer.cameraState (some exampleBox)).fov_deg =
        max 5 (max ((exampleBox.xmax - exampleBox.xmin) / readyRenderer.bedWidth)
          ((exampleBox.ymax - exampleBox.ymin) / readyRenderer.bedDepth) * 60) :=
  ⟨rfl, by decide, by decide,
    C4_part_centered_target_and_fov readyRenderer exampleBox rfl (by decide) (by decide)⟩

/-- C5: in part-centered mode the field of view is non-decreasing in the size ratio
`max(partWidth/bedWidth, partDepth/bedDepth)`, it is never below 5 degrees, and it
is 5 degrees when the ratio is 0. -/
theorem C5_part_centered_fov_monotone [LinearOrderedField α] (r₁ r₂ : Renderer α)
    (b₁ b₂ : BBox α) (h₁ : r₁.pointCameraAtPart = true) (h₂ : r₂.pointCameraAtPart = true) :
    (max ((b₁.xmax - b₁.xmin) / r₁.bedWidth) ((b₁.ymax - b₁.ymin) / r₁.bedDepth) ≤
        max ((b₂.xmax - b₂.xmin) / r₂.bedWidth) ((b₂.ymax - b₂.ymin) / r₂.bedDepth) →
      (r₁.cameraState (some b₁)).fov_deg ≤ (r₂.cameraState (some b₂)).fov_deg) ∧
    5 ≤ (r₁.cameraState (some b₁)).fov_deg ∧
    (max ((b₁.xmax - b₁.xmin) / r₁.bedWidth) ((b₁.ymax - b₁.ymin) / r₁.bedDepth) = 0 →
      (r₁.cameraState (some b₁)).fov_deg = 5) := by
  have e₁ := (part_centered_fov_eq r₁ b₁ h₁)
  have e₂ := (part_centered_fov_eq r₂ b₂ h₂)
  refine ⟨fun h => ?_, ?_, fun h => ?_⟩
  · rw [e₁, e₂]
    exact max_le_max le_rfl (mul_le_mul_of_nonneg_right h (by norm_num))
  · rw [e₁]
    exact le_max_left _ _
  · rw [e₁, h]
    norm_num

/-- C5 for `exampleBox` and `bedSizedBox`: the smaller ratio gives the smaller field
of view. -/
theorem C5_part_centered_fov_monotone_witness :
    readyRenderer.pointCameraAtPart = true ∧
    max ((exampleBox.xmax - exampleBox.xmin) / readyRenderer.bedWidth)
          ((exampleBox.ymax - exampleBox.ymin) / readyRenderer.bedDepth) ≤
        max ((bedSizedBox.xmax - bedSizedBox.xmin) / readyRenderer.bedWidth)
          ((bedSizedBox.ymax - bedSizedBox.ymin) / readyRenderer.bedDepth) ∧
    (readyRenderer.cameraState (some exampleBox)).fov_deg ≤
        (readyRenderer.cameraState (some bedSizedBox)).fov_deg ∧
    5 ≤ (readyRenderer.cameraState (some exampleBox)).fov_deg :=
  ⟨rfl, exampleBox_ratio_le,
    (C5_part_centered_fov_monotone readyRenderer readyRenderer exampleBox bedSizedBox
      rfl rfl).1 exampleBox_ratio_le,
    (C5_part_centered_fov_monotone readyRenderer readyRenderer exampleBox bedSizedBox
      rfl rfl).2.1⟩

/-- C6: in bed-centered mode, for a bounding box that lies on the bed, the two
factors `x_factor = 1 - min(offsetX + xmin, bedWidth - offsetX - xmax) / (bedWidth/2)`
and `y_factor` (the same on y) lie in `[0, 1]`, and the field of view is
`max(5, max(x_factor, y_factor) * 60)` degrees. -/
theorem C6_bed_centered_factors_and_fov [LinearOrderedField α] (r : Renderer α)
    (bbox : BBox α) (hmode : r.pointCameraAtPart = false)
    (hw : 0 < r.bedWidth) (hd : 0 < r.bedDepth)
    (hx₁ : -r.bedOriginOffset.x ≤ bbox.xmin) (hx₂ : bbox.xmin ≤ bbox.xmax)
    (hx₃ : bbox.xmax ≤ r.bedWidth - r.bedOriginOffset.x)
    (hy₁ : -r.bedOriginOffset.y ≤ bbox.ymin) (hy₂ : bbox.ymin ≤ bbox.ymax)
    (hy₃ : bbox.ymax ≤ r.bedDepth - r.bedOriginOffset.y) :
    r.bedFactors bbox =
      (1 - min (r.bedOriginOffset.x + bbox.xmin)
          (r.bedWidth - r.bedOriginOffset.x - bbox.xmax) / (r.bedWidth / 2),
       1 - min (r.bedOriginOffset.y + bbox.ymin)
          (r.bedDepth - r.bedOriginOffset.y - bbox.ymax) / (r.bedDepth / 2)) ∧
    (0 ≤ (r.bedFactors bbox).1 ∧ (r.bedFactors bbox).1 ≤ 1) ∧
    (0 ≤ (r.bedFactors bbox).2 ∧ (r.bedFactors bbox).2 ≤ 1) ∧
    (r.cameraState (some bbox)).fov_deg =
      max 5 (max (r.bedFactors bbox).1 (r.bedFactors bbox).2 * 60) := by
  refine ⟨rfl, ?_, ?_, ?_⟩
  · exact factor_mem_unit _ _ _ hw (by linarith) (by linarith) (by linarith)
  · exact factor_mem_unit _ _ _ hd (by linarith) (by linarith) (by linarith)
  · simp [Renderer.cameraState, hmode]

/-- C6 for `exampleBox`, which lies on the bed of `bedCenteredRenderer`. -/
theorem C6_bed_centered_factors_and_fov_witness :
    bedCenteredRenderer.pointCameraAtPart = false ∧
    (0 < bedCenteredRenderer.bedWidth ∧ 0 < bedCenteredRenderer.bedDepth) ∧
    (-bedCenteredRenderer.bedOriginOffset.x ≤ exampleBox.xmin ∧
      exampleBox.xmin ≤ exampleBox.xmax ∧
      exampleBox.xmax ≤ bedCenteredRenderer.bedWidth - bedCenteredRenderer.bedOriginOffset.x) ∧
    (-bedCenteredRenderer.bedOriginOffset.y ≤ exampleBox.ymin ∧
      exampleBox.ymin ≤ exampleBox.ymax ∧
      exampleBox.ymax ≤ bedCenteredRenderer.bedDepth - bedCenteredRenderer.bedOriginOffset.y) ∧
    (0 ≤ (bedCenteredRenderer.bedFactors exampleBox).1 ∧
      (bedCenteredRenderer.bedFactors exampleBox).1 ≤ 1) ∧
    (0 ≤ (bedCenteredRenderer.bedFactors exampleBox).2 ∧
      (bedCenteredRenderer.bedFactors exampleBox).2 ≤ 1) ∧
    (bedCenteredRenderer.cameraState (some exampleBox)).fov_deg =
      max 5 (max (bedCenteredRenderer.bedFactors exampleBox).1
        (bedCenteredRenderer.bedFactors exampleBox).2 * 60) :=
  ⟨rfl, ⟨by decide, by decide⟩, ⟨by decide, by decide, exampleBox_on_bed.1⟩,
    ⟨by decide, by decide, exampleBox_on_bed.2⟩,
    (C6_bed_centered_factors_and_fov bedCenteredRenderer exampleBox rfl (by decide)
      (by decide) (by decide) (by decide) exampleBox_on_bed.1 (by decide) (by decide)
      exampleBox_on_bed.2).2⟩

/-- C7 fails on the code.  With the settings of `Renderer.h` (bed 365 x 350, origin
offset (37, 33)) the bed quad of `bufferBed` spans x in [-37, 328] and y in
[-33, 317], whose midpoints are 291/2 and 142; the target that `setCamera` uses
without a bounding box, and in bed-centered mode, is (164, 317/2, 0). -/
theorem C7_target_off_bed_centre :
    readyRenderer.bedvertices =
        [-37, -33, 0, -37, 317, 0, 328, 317, 0, 328, -33, 0] ∧
    (readyRenderer.cameraState none).cameraTarget = ⟨164, 317 / 2, 0⟩ ∧
    (bedCenteredRenderer.cameraState (some exampleBox)).cameraTarget = ⟨164, 317 / 2, 0⟩ ∧
    (readyRenderer.cameraState none).cameraTarget.x ≠ (-37 + 328) / 2 ∧
    (readyRenderer.cameraState none).cameraTarget.y ≠ (-33 + 317) / 2 := by
  have hlines : ¬DrawType.DRAW_LINES = DrawType.DRAW_TUBES := by decide
  refine ⟨?_, ?_, ?_, ?_, ?_⟩ <;>
    norm_num [readyRenderer, bedCenteredRenderer, Renderer.initialise, Renderer.bufferBed,
      Renderer.buffer, Renderer.new, Renderer.bedvertices, Renderer.cameraState, hlines]

/-! ## The rows handed to the encoder (C8) -/

/-- C9: without a valid bounding box the field of view is the base value of 20
degrees, whatever the settings (so in both camera-target modes); and in every case,
with or without a box and in either mode, the eye position is the target plus the
configured `cameraDistance`: each coordinate of the eye is the sum of that coordinate
of the target and of `cameraDistance`. -/
theorem C9_no_bbox_base_fov_and_eye_offset [LinearOrderedField α] (r : Renderer α) :
    (r.cameraState none).fov_deg = 20 ∧
    ∀ bbox : Option (BBox α),
      (r.cameraState bbox).cameraPosition.x =
          (r.cameraState bbox).cameraTarget.x + r.cameraDistance.x ∧
        (r.cameraState bbox).cameraPosition.y =
          (r.cameraState bbox).cameraTarget.y + r.cameraDistance.y ∧
        (r.cameraState bbox).cameraPosition.z =
          (r.cameraState bbox).cameraTarget.z + r.cameraDistance.z := by
  refine ⟨rfl, fun bbox => ?_⟩
  cases bbox with
  | none => exact ⟨rfl, rfl, rfl⟩
  | some b =>
    cases h : r.pointCameraAtPart <;> simp [Renderer.cameraState, Vec3.add, h]

/-- C10: in part-centered mode, for a bed of positive width and depth and a bounding
box exactly as wide and as deep as the bed, the scale factor is 1 and the field of
view is 60 degrees. -/
theorem C10_bed_sized_part_fov_60 [LinearOrderedField α] (r : Renderer α) (bbox : BBox α)
    (hmode : r.pointCameraAtPart = true) (hw : 0 < r.bedWidth) (hd : 0 < r.bedDepth)
    (hx : bbox.xmax - bbox.xmin = r.bedWidth) (hy : bbox.ymax - bbox.ymin = r.bedDepth) :
    max (r.partFactors bbox).1 (r.partFactors bbox).2 = 1 ∧
    (r.cameraState (some bbox)).fov_deg = 60 := by
  have h1 : (r.partFactors bbox).1 = 1 := by
    simp [Renderer.partFactors, hx, div_self hw.ne.symm]
  have h2 : (r.partFactors bbox).2 = 1 := by
    simp [Renderer.partFactors, hy, div_self hd.ne.symm]
  refine ⟨by rw [h1, h2, max_self], ?_⟩
  simp only [Renderer.cameraState, hmode, if_true, h1, h2, max_self]
  norm_num

/-- C10 for `bedSizedBox` on the bed of `readyRenderer`. -/
theorem C10_bed_sized_part_fov_60_witness :
    readyRenderer.pointCameraAtPart = true ∧
    (0 < readyRenderer.bedWidth ∧ 0 < readyRenderer.bedDepth) ∧
    (bedSizedBox.xmax - bedSizedBox.xmin = readyRenderer.bedWidth ∧
      bedSizedBox.ymax - bedSizedBox.ymin = readyRenderer.bedDepth) ∧
    max (readyRenderer.partFactors bedSizedBox).1 (readyRenderer.partFactors bedSizedBox).2 = 1 ∧
    (readyRenderer.cameraState (some bedSizedBox)).fov_deg = 60 :=
  ⟨rfl, ⟨by decide, by decide⟩, bedSizedBox_size,
    C10_bed_sized_part_fov_60 readyRenderer bedSizedBox rfl (by decide) (by decide)
      bedSizedBox_size.1 bedSizedBox_size.2⟩

/-! ## Lemmas on the bed quad -/

theorem bedvertices_examples :
    readyRenderer.bedvertices = [-37, -33, 0, -37, 317, 0, 328, 317, 0, 328, -33, 0] ∧
    tubesRenderer.bedvertices =
      [-37, -33, 0, 0, 0, 1, -37, 317, 0, 0, 0, 1, 328, 317, 0, 0, 0, 1,
       328, -33, 0, 0, 0, 1] := by
  have hlines : ¬DrawType.DRAW_LINES = DrawType.DRAW_TUBES := by decide
  constructor <;>
    norm_num [readyRenderer, tubesRenderer, Renderer.initialise, Renderer.bufferBed,
      Renderer.buffer, Renderer.new, Renderer.bedvertices, hlines]

/-! ## The bed quad (C11) -/

/-- C11: for every bed width, bed depth, origin offset and draw type, `bufferBed`
buffers 4 vertices, the corners of the rectangle
`[-offsetX, bedWidth-offsetX] x [-offsetY, bedDepth-offsetY]` at `z = 0` (a quad
`bedWidth` wide and `bedDepth` deep), as 12 floats (3 per vertex) for `DRAW_LINES`
and 24 floats (6 per vertex, every normal `(0,0,1)`) for `DRAW_TUBES`; and 6 indices,
the two triangles `(0,1,2)` and `(2,3,0)`, which reference only the vertices 0..3,
both contain the vertices 0 and 2, and together use all four corners. -/
theorem C11_bufferBed_quad [LinearOrderedField α] (r : Renderer α) :
    (r.bufferBed.bedBuffer.nVertices = r.bedvertices.length ∧
      r.bufferBed.bedBuffer.nIndices = 6) ∧
    r.bedvertices.length = 4 * r.floatsPerVertex ∧
    (List.range 4).map (r.vertexPosition r.bedvertices) =
      [some ⟨-r.bedOriginOffset.x, -r.bedOriginOffset.y, 0⟩,
       some ⟨-r.bedOriginOffset.x, r.bedDepth - r.bedOriginOffset.y, 0⟩,
       some ⟨r.bedWidth - r.bedOriginOffset.x, r.bedDepth - r.bedOriginOffset.y, 0⟩,
       some ⟨r.bedWidth - r.bedOriginOffset.x, -r.bedOriginOffset.y, 0⟩] ∧
    r.vertexPosition r.bedvertices 4 = none ∧
    (r.bedWidth - r.bedOriginOffset.x - -r.bedOriginOffset.x = r.bedWidth ∧
      r.bedDepth - r.bedOriginOffset.y - -r.bedOriginOffset.y = r.bedDepth) ∧
    (r.drawType = DrawType.DRAW_LINES →
      r.floatsPerVertex = 3 ∧ r.bedvertices.length = 12) ∧
    (r.drawType = DrawType.DRAW_TUBES →
      r.floatsPerVertex = 6 ∧ r.bedvertices.length = 24 ∧
      ∀ i, i < 4 → r.vertexNormal r.bedvertices i = some ⟨0, 0, 1⟩) ∧
    bedindices.length = 6 ∧
    triangles bedindices = [(0, 1, 2), (2, 3, 0)] ∧
    (∀ k ∈ bedindices, 0 ≤ k ∧ k ≤ 3) ∧
    (∀ t ∈ triangles bedindices, 0 ∈ [t.1, t.2.1, t.2.2] ∧ 2 ∈ [t.1, t.2.1, t.2.2]) ∧
    (∀ v ∈ ([0, 1, 2, 3] : List Int), v ∈ bedindices) := by
  refine ⟨⟨rfl, rfl⟩, ?_, ?_, ?_, ⟨by ring, by ring⟩, ?_, ?_, rfl, rfl, by decide, by decide,
    by decide⟩
  · cases h : r.drawType <;> simp [Renderer.bedvertices, Renderer.floatsPerVertex, h]
  · cases h : r.drawType <;>
      simp [Renderer.bedvertices, Renderer.floatsPerVertex, Renderer.vertexPosition, h,
        List.range_succ]
  · cases h : r.drawType <;>
      simp [Renderer.bedvertices, Renderer.floatsPerVertex, Renderer.vertexPosition, h]
  · intro h
    simp [Renderer.bedvertices, Renderer.floatsPerVertex, h]
  · intro h
    refine ⟨by simp [Renderer.floatsPerVertex, h], by simp [Renderer.bedvertices, h], ?_⟩
    intro i hi
    interval_cases i <;>
      simp [Renderer.bedvertices, Renderer.floatsPerVertex, Renderer.vertexNormal, h]

/-- C11 for the settings of `Renderer.h`, with lines (`readyRenderer`) and with tubes
(`tubesRenderer`). -/
theorem C11_bufferBed_quad_witness :
    (readyRenderer.drawType = DrawType.DRAW_LINES ∧
      readyRenderer.bedvertices = [-37, -33, 0, -37, 317, 0, 328, 317, 0, 328, -33, 0] ∧
      readyRenderer.floatsPerVertex = 3 ∧ readyRenderer.bedvertices.length = 12) ∧
    (tubesRenderer.drawType = DrawType.DRAW_TUBES ∧
      tubesRenderer.bedvertices =
        [-37, -33, 0, 0, 0, 1, -37, 317, 0, 0, 0, 1, 328, 317, 0, 0, 0, 1,
         328, -33, 0, 0, 0, 1] ∧
      tubesRenderer.floatsPerVertex = 6 ∧ tubesRenderer.bedvertices.length = 24 ∧
      ∀ i, i < 4 → tubesRenderer.vertexNormal tubesRenderer.bedvertices i = some ⟨0, 0, 1⟩) :=
  ⟨⟨rfl, bedvertices_examples.1, (C11_bufferBed_quad readyRenderer).2.2.2.2.2.1 rfl⟩,
    ⟨rfl, bedvertices_examples.2, (C11_bufferBed_quad tubesRenderer).2.2.2.2.2.2.1 rfl⟩⟩

end GcodeRender
